import Mathlib

/-!
# One-way payment channel core: shallow embedding and verification

This file embeds the transaction-construction and lifecycle core of the
one-way payment channel (`src/channels/channel/include/channel_transaction.hpp`
and the surrounding design described in `spec.md`) and proves the stated
properties about it.

The repository source only contains the abstract base class
`channel_transaction` (holding a `transaction_` member and a pure-virtual
`to_data() const`).  The concrete transaction variants, the canonical codec
and the channel lifecycle state machine are not present under `src/`, so they
are modelled here from the specification, as noted on each definition.
-/

namespace OneWayChannel

/-- Reference to a prior transaction output: (transaction id, output index). -/
structure Outpoint where
  txid : Nat
  index : Nat
deriving DecidableEq, Repr

/-- Locking condition of an output: a 2-of-2 multisignature lock over two
public keys, or a pay-to-pubkey-hash lock over one key.  Keys are modelled
as natural numbers. -/
inductive LockScript where
  | multisig2of2 (key1 key2 : Nat)
  | p2pkh (key : Nat)
deriving DecidableEq, Repr

/-- Transaction output: an unsigned integer value and a locking condition. -/
structure Output where
  value : Nat
  lock : LockScript
deriving DecidableEq, Repr

/-- Transaction input: an outpoint, an unlocking proof (a byte list, initially
empty), and a sequence number. -/
structure Input where
  outpoint : Outpoint
  proof : List Nat
  sequence : Nat
deriving DecidableEq, Repr

/-- A transaction: version, ordered inputs, ordered outputs, locktime. -/
structure Transaction where
  version : Nat
  inputs : List Input
  outputs : List Output
  locktime : Nat
deriving DecidableEq, Repr

/-- The error kinds of the design's error-handling section. -/
inductive ErrorKind where
  | MalformedTransaction
  | InvalidStateTransition
  | NonMonotonicUpdate
  | CapacityExceeded
  | VerificationError
  | BroadcastError
deriving DecidableEq, Repr

/-- Lifecycle phases of a channel. -/
inductive Phase where
  | UNFUNDED
  | OPEN
  | CLOSED
  | EXPIRED
deriving DecidableEq, Repr

/-- Modelled from the spec: `ChannelState` of the data-model section —
funding outpoint, total capacity, current amount owed to the payee, the three
public keys, the relative-timelock delay for the refund, the current update
sequence counter and the lifecycle phase.  The model additionally records the
externally reported funding confirmation height (set by `fund`, consumed by
`expire`) and the payer-supplied outpoints that fund the channel (inputs of
the Funding transaction). -/
structure ChannelState where
  fundingOutpoint : Outpoint
  capacity : Nat
  amount_owed_to_payee : Nat
  payerRefundPubkey : Nat
  payeePubkey : Nat
  payerPubkey : Nat
  delay : Nat
  updateSeq : Nat
  phase : Phase
  fundingConfirmationHeight : Nat
  payerFundingOutpoints : List Outpoint
deriving DecidableEq, Repr

/-- The closed set of channel transaction variants (the design notes ask for
the abstract-base/virtual-dispatch pattern of `channel_transaction` to be
read as a closed tagged variant). -/
inductive Variant where
  | Funding
  | Refund
  | Payment
  | Settlement
deriving DecidableEq, Repr

/-- Modelled from the spec: the shared pure `build(ChannelState) -> Transaction`
of the four variants.  Funding spends the payer-supplied outpoints and creates
a single output of value `capacity` under a 2-of-2 multisignature lock.
Refund spends the funding output, carries the relative timelock `delay` in its
input sequence field, and returns the full `capacity` to the payer.  Payment
spends the funding output into two outputs: `amount_owed_to_payee` to the
payee and `capacity - amount_owed_to_payee` to the payer.  Settlement
broadcasts the most recent Payment split. -/
def build : Variant → ChannelState → Transaction
  | .Funding, s =>
    { version := 1
      inputs := s.payerFundingOutpoints.map
        (fun op => { outpoint := op, proof := [], sequence := 0xffffffff })
      outputs := [{ value := s.capacity
                    lock := .multisig2of2 s.payerPubkey s.payeePubkey }]
      locktime := 0 }
  | .Refund, s =>
    { version := 1
      inputs := [{ outpoint := s.fundingOutpoint, proof := [], sequence := s.delay }]
      outputs := [{ value := s.capacity, lock := .p2pkh s.payerRefundPubkey }]
      locktime := 0 }
  | .Payment, s =>
    { version := 1
      inputs := [{ outpoint := s.fundingOutpoint, proof := [], sequence := 0xffffffff }]
      outputs := [{ value := s.amount_owed_to_payee, lock := .p2pkh s.payeePubkey },
                  { value := s.capacity - s.amount_owed_to_payee
                    lock := .p2pkh s.payerPubkey }]
      locktime := 0 }
  | .Settlement, s =>
    { version := 1
      inputs := [{ outpoint := s.fundingOutpoint, proof := [], sequence := 0xffffffff }]
      outputs := [{ value := s.amount_owed_to_payee, lock := .p2pkh s.payeePubkey },
                  { value := s.capacity - s.amount_owed_to_payee
                    lock := .p2pkh s.payerPubkey }]
      locktime := 0 }

/-- Result of a lifecycle transition: either a transaction (success) or an
error, paired with the channel state after the call. -/
abbrev LifecycleResult := Except ErrorKind Transaction × ChannelState

/-- Modelled from the spec: `fund()` — `UNFUNDED → OPEN`, taking the
externally reported confirmation height of the Funding transaction as an
explicit parameter.  Fails with `InvalidStateTransition` in any other phase,
leaving the state unchanged. -/
def fund (s : ChannelState) (confHeight : Nat) : LifecycleResult :=
  match s.phase with
  | .UNFUNDED =>
    (.ok (build .Funding s),
     { s with phase := .OPEN, fundingConfirmationHeight := confHeight })
  | _ => (.error .InvalidStateTransition, s)

/-- Modelled from the spec: `issueUpdate(newAmount)` — stays in `OPEN`;
fails with `NonMonotonicUpdate` if `newAmount < amount_owed_to_payee`, with
`CapacityExceeded` if `newAmount > capacity`; on success produces a new
Payment transaction and advances `amount_owed_to_payee`.  Failure leaves the
state unchanged. -/
def issueUpdate (s : ChannelState) (newAmount : Nat) : LifecycleResult :=
  match s.phase with
  | .OPEN =>
    if newAmount < s.amount_owed_to_payee then
      (.error .NonMonotonicUpdate, s)
    else if s.capacity < newAmount then
      (.error .CapacityExceeded, s)
    else
      let t := { s with amount_owed_to_payee := newAmount, updateSeq := s.updateSeq + 1 }
      (.ok (build .Payment t), t)
  | _ => (.error .InvalidStateTransition, s)

/-- Modelled from the spec: `settle()` — `OPEN → CLOSED`, broadcasting the
most recent Payment transaction (the Settlement split of the current state). -/
def settle (s : ChannelState) : LifecycleResult :=
  match s.phase with
  | .OPEN => (.ok (build .Settlement s), { s with phase := .CLOSED })
  | _ => (.error .InvalidStateTransition, s)

/-- Modelled from the spec: `expire()` — `OPEN → EXPIRED`, legal only once
the relative timelock has matured against the externally supplied chain
height; broadcasts the Refund transaction.  Fails with
`InvalidStateTransition` while `currentHeight < fundingConfirmationHeight +
delay`, leaving the state unchanged. -/
def expire (s : ChannelState) (currentHeight : Nat) : LifecycleResult :=
  match s.phase with
  | .OPEN =>
    if currentHeight < s.fundingConfirmationHeight + s.delay then
      (.error .InvalidStateTransition, s)
    else
      (.ok (build .Refund s), { s with phase := .EXPIRED })
  | _ => (.error .InvalidStateTransition, s)

/-- Modelled from the spec: a freshly created channel — phase `UNFUNDED`,
nothing owed to the payee yet, update counter zero. -/
def initChannel (fo : Outpoint) (cap : Nat) (refundKey payeeKey payerKey : Nat)
    (d : Nat) (ops : List Outpoint) : ChannelState :=
  { fundingOutpoint := fo
    capacity := cap
    amount_owed_to_payee := 0
    payerRefundPubkey := refundKey
    payeePubkey := payeeKey
    payerPubkey := payerKey
    delay := d
    updateSeq := 0
    phase := .UNFUNDED
    fundingConfirmationHeight := 0
    payerFundingOutpoints := ops }

/-! ## Transaction codec

Modelled from the spec: canonical binary serialization of a transaction
(version, inputs, outputs, locktime), independent of channel semantics.
Field order and integer width are fixed: version, counts, indices and
sequence numbers are 4-byte little-endian words; values, transaction ids and
keys are 8-byte little-endian words; list fields are a 4-byte count followed
by the elements.  Bytes are natural numbers below 256. -/

/-- Fixed-width little-endian encoding of `n` into `w` bytes. -/
def encWord : Nat → Nat → List Nat
  | 0, _ => []
  | w + 1, n => n % 256 :: encWord w (n / 256)

/-- Read a `w`-byte little-endian word; fails on truncation or on a list
element that is not a byte. -/
def readWord : Nat → List Nat → Option (Nat × List Nat)
  | 0, bs => some (0, bs)
  | _ + 1, [] => none
  | w + 1, b :: bs =>
    if b < 256 then
      (readWord w bs).map (fun q => (b + 256 * q.1, q.2))
    else none

/-- Concatenation of the encodings of the elements of a list. -/
def encMany (e : α → List Nat) : List α → List Nat
  | [] => []
  | a :: as => e a ++ encMany e as

/-- Read exactly `k` consecutive elements with the element reader `p`. -/
def readCount (p : List Nat → Option (α × List Nat)) :
    Nat → List Nat → Option (List α × List Nat)
  | 0, bs => some ([], bs)
  | k + 1, bs =>
    (p bs).bind fun q =>
      (readCount p k q.2).map fun q2 => (q.1 :: q2.1, q2.2)

/-- Canonical encoding of an outpoint: 8-byte txid, 4-byte index. -/
def encOutpoint (o : Outpoint) : List Nat :=
  encWord 8 o.txid ++ encWord 4 o.index

/-- Read an outpoint. -/
def readOutpoint (bs : List Nat) : Option (Outpoint × List Nat) :=
  (readWord 8 bs).bind fun q1 =>
    (readWord 4 q1.2).map fun q2 => ({ txid := q1.1, index := q2.1 }, q2.2)

/-- Canonical encoding of a locking condition: a tag byte followed by the
fixed-width keys. -/
def encLock : LockScript → List Nat
  | .multisig2of2 k1 k2 => 0 :: (encWord 8 k1 ++ encWord 8 k2)
  | .p2pkh k => 1 :: encWord 8 k

/-- Read a locking condition; fails on an unknown tag. -/
def readLock (bs : List Nat) : Option (LockScript × List Nat) :=
  match bs with
  | [] => none
  | tag :: r =>
    if tag = 0 then
      (readWord 8 r).bind fun q1 =>
        (readWord 8 q1.2).map fun q2 => (.multisig2of2 q1.1 q2.1, q2.2)
    else if tag = 1 then
      (readWord 8 r).map fun q => (.p2pkh q.1, q.2)
    else none

/-- Canonical encoding of an input: outpoint, 4-byte proof length, the proof
bytes, 4-byte sequence number. -/
def encInput (i : Input) : List Nat :=
  encOutpoint i.outpoint ++ encWord 4 i.proof.length ++
    encMany (encWord 1) i.proof ++ encWord 4 i.sequence

/-- Read an input. -/
def readInput (bs : List Nat) : Option (Input × List Nat) :=
  (readOutpoint bs).bind fun q1 =>
    (readWord 4 q1.2).bind fun q2 =>
      (readCount (readWord 1) q2.1 q2.2).bind fun q3 =>
        (readWord 4 q3.2).map fun q4 =>
          ({ outpoint := q1.1, proof := q3.1, sequence := q4.1 }, q4.2)

/-- Canonical encoding of an output: 8-byte value, locking condition. -/
def encOutput (o : Output) : List Nat :=
  encWord 8 o.value ++ encLock o.lock

/-- Read an output. -/
def readOutput (bs : List Nat) : Option (Output × List Nat) :=
  (readWord 8 bs).bind fun q1 =>
    (readLock q1.2).map fun q2 => ({ value := q1.1, lock := q2.1 }, q2.2)

/-- Canonical encoding of a transaction: 4-byte version, 4-byte input count,
inputs, 4-byte output count, outputs, 4-byte locktime. -/
def encTx (t : Transaction) : List Nat :=
  encWord 4 t.version ++ encWord 4 t.inputs.length ++ encMany encInput t.inputs ++
    encWord 4 t.outputs.length ++ encMany encOutput t.outputs ++ encWord 4 t.locktime

/-- Parse a transaction, returning the remaining bytes. -/
def parseTx (bs : List Nat) : Option (Transaction × List Nat) :=
  (readWord 4 bs).bind fun v =>
    (readWord 4 v.2).bind fun nin =>
      (readCount readInput nin.1 nin.2).bind fun ins =>
        (readWord 4 ins.2).bind fun nout =>
          (readCount readOutput nout.1 nout.2).bind fun outs =>
            (readWord 4 outs.2).map fun lt =>
              ({ version := v.1, inputs := ins.1, outputs := outs.1,
                 locktime := lt.1 }, lt.2)

/-- Decoding succeeds only when the bytes parse as a transaction with no
trailing bytes; any other input is `MalformedTransaction`. -/
def decode (bs : List Nat) : Except ErrorKind Transaction :=
  match parseTx bs with
  | some (t, []) => .ok t
  | _ => .error .MalformedTransaction

/-- Encoding: the canonical byte encoding, the inverse of `decode`. -/
def encode (t : Transaction) : List Nat := encTx t

/-- Well-formed locking condition: keys fit their 8-byte width. -/
def wfLock : LockScript → Prop
  | .multisig2of2 k1 k2 => k1 < 256 ^ 8 ∧ k2 < 256 ^ 8
  | .p2pkh k => k < 256 ^ 8

instance : ∀ l, Decidable (wfLock l)
  | .multisig2of2 _ _ => inferInstanceAs (Decidable (_ ∧ _))
  | .p2pkh _ => inferInstanceAs (Decidable (_ < _))

/-- Well-formed input: all numeric fields fit their widths and the proof is
a list of bytes. -/
def wfInput (i : Input) : Prop :=
  i.outpoint.txid < 256 ^ 8 ∧ i.outpoint.index < 256 ^ 4 ∧
    i.proof.length < 256 ^ 4 ∧ (∀ b ∈ i.proof, b < 256) ∧ i.sequence < 256 ^ 4

instance (i : Input) : Decidable (wfInput i) := by
  unfold wfInput; infer_instance

/-- Well-formed output: value fits its width and the lock is well-formed. -/
def wfOutput (o : Output) : Prop :=
  o.value < 256 ^ 8 ∧ wfLock o.lock

instance (o : Output) : Decidable (wfOutput o) := by
  unfold wfOutput; infer_instance

/-- Well-formed transaction: every field fits its fixed width. -/
def wellFormed (t : Transaction) : Prop :=
  t.version < 256 ^ 4 ∧ t.inputs.length < 256 ^ 4 ∧ (∀ i ∈ t.inputs, wfInput i) ∧
    t.outputs.length < 256 ^ 4 ∧ (∀ o ∈ t.outputs, wfOutput o) ∧ t.locktime < 256 ^ 4

instance (t : Transaction) : Decidable (wellFormed t) := by
  unfold wellFormed; infer_instance

/-- Shallow embedding of the abstract base class `channel_transaction` of
`channel_transaction.hpp`, closed over its four concrete variants: an object
holding the protected `transaction_` member together with its dynamic
variant tag. -/
structure channel_transaction where
  variant : Variant
  transaction_ : Transaction
deriving DecidableEq, Repr

/-- The `to_data() const` virtual of `channel_transaction.hpp`, in
state-passing form so the const contract is visible: each concrete variant
serializes the stored `transaction_` through the canonical codec and returns
the receiver object unchanged. -/
def to_data (o : channel_transaction) : List Nat × channel_transaction :=
  match o.variant with
  | .Funding => (encode o.transaction_, o)
  | .Refund => (encode o.transaction_, o)
  | .Payment => (encode o.transaction_, o)
  | .Settlement => (encode o.transaction_, o)

/-- One lifecycle step: the state after any single call to one of the four
transitions (failed calls leave the state unchanged and are steps too). -/
inductive Step : ChannelState → ChannelState → Prop where
  | fund (s : ChannelState) (h : Nat) : Step s (fund s h).2
  | update (s : ChannelState) (n : Nat) : Step s (issueUpdate s n).2
  | settle (s : ChannelState) : Step s (settle s).2
  | expire (s : ChannelState) (h : Nat) : Step s (expire s h).2

/-- Reflexive-transitive closure of `Step`: the states reachable from a given
start state by any sequence of lifecycle calls. -/
inductive Reachable : ChannelState → ChannelState → Prop where
  | refl (s : ChannelState) : Reachable s s
  | tail {s t u : ChannelState} : Reachable s t → Step t u → Reachable s u

/-- A freshly created sample channel, for instantiating the theorems below. -/
def sampleInit : ChannelState :=
  initChannel { txid := 3, index := 1 } 100000 11 12 13 144 [{ txid := 3, index := 1 }]

/-- A sample channel in phase `OPEN`, for instantiating the theorems below. -/
def sampleOpen : ChannelState :=
  { fundingOutpoint := { txid := 7, index := 0 }
    capacity := 100000
    amount_owed_to_payee := 1000
    payerRefundPubkey := 11
    payeePubkey := 12
    payerPubkey := 13
    delay := 144
    updateSeq := 1
    phase := .OPEN
    fundingConfirmationHeight := 500
    payerFundingOutpoints := [{ txid := 3, index := 1 }] }

/-- A sample channel in the terminal phase `CLOSED`. -/
def sampleClosed : ChannelState :=
  { sampleOpen with phase := .CLOSED }

/-- A sample well-formed transaction, for instantiating the codec theorem. -/
def sampleTx : Transaction :=
  { version := 1
    inputs := [{ outpoint := { txid := 7, index := 0 }, proof := [5, 6], sequence := 144 }]
    outputs := [{ value := 1000, lock := .p2pkh 12 },
                { value := 99000, lock := .p2pkh 13 }]
    locktime := 0 }

/-! ## Codec lemmas -/

theorem readWord_encWord (w n : Nat) (h : n < 256 ^ w) :
    ∀ r, readWord w (encWord w n ++ r) = some (n, r) := by
  induction w generalizing n with
  | zero =>
    intro r
    have hn : n = 0 := by simpa using h
    simp [encWord, readWord, hn]
  | succ w ih =>
    intro r
    have hdiv : n / 256 < 256 ^ w := by
      rw [Nat.div_lt_iff_lt_mul (by norm_num : 0 < 256)]
      calc n < 256 ^ (w + 1) := h
        _ = 256 ^ w * 256 := pow_succ 256 w
    have hm : n % 256 < 256 := Nat.mod_lt _ (by norm_num)
    simp only [encWord, List.cons_append, readWord, if_pos hm, List.append_eq,
      ih (n / 256) hdiv, Option.map_some']
    rw [Nat.mod_add_div]

theorem readWord_extend (w : Nat) :
    ∀ bs n r ys, readWord w bs = some (n, r) →
      readWord w (bs ++ ys) = some (n, r ++ ys) := by
  induction w with
  | zero =>
    intro bs n r ys h
    simp only [readWord, Option.some.injEq, Prod.mk.injEq] at h
    obtain ⟨h1, h2⟩ := h
    simp [readWord, h1, h2]
  | succ w ih =>
    intro bs n r ys h
    cases bs with
    | nil => simp [readWord] at h
    | cons b tl =>
      simp only [readWord] at h
      by_cases hb : b < 256
      · rw [if_pos hb] at h
        cases hrw : readWord w tl with
        | none => rw [hrw] at h; simp at h
        | some pr =>
          rw [hrw] at h
          simp only [Option.map_some', Option.some.injEq, Prod.mk.injEq] at h
          simp only [List.cons_append, readWord, if_pos hb, List.append_eq, ih tl pr.1 pr.2 ys
            (by rw [hrw]), Option.map_some']
          simp [h.1, h.2]
      · rw [if_neg hb] at h; simp at h

theorem readCount_encMany (p : List Nat → Option (α × List Nat)) (e : α → List Nat)
    (as : List α) (hp : ∀ a ∈ as, ∀ r, p (e a ++ r) = some (a, r)) :
    ∀ r, readCount p as.length (encMany e as ++ r) = some (as, r) := by
  induction as with
  | nil => intro r; simp [encMany, readCount]
  | cons a tl ih =>
    intro r
    simp only [encMany, List.length_cons, readCount, List.append_assoc,
      hp a (by simp) (encMany e tl ++ r), Option.some_bind]
    simp [ih (fun x hx => hp x (by simp [hx])) r]

theorem readCount_extend (p : List Nat → Option (α × List Nat))
    (hp : ∀ bs a r ys, p bs = some (a, r) → p (bs ++ ys) = some (a, r ++ ys)) :
    ∀ k bs as r ys, readCount p k bs = some (as, r) →
      readCount p k (bs ++ ys) = some (as, r ++ ys) := by
  intro k
  induction k with
  | zero =>
    intro bs as r ys h
    simp only [readCount, Option.some.injEq, Prod.mk.injEq] at h
    obtain ⟨h1, h2⟩ := h
    simp [readCount, h1, h2]
  | succ k ih =>
    intro bs as r ys h
    simp only [readCount] at h
    cases h1 : p bs with
    | none => rw [h1] at h; simp at h
    | some pr =>
      rw [h1] at h
      simp only [Option.some_bind] at h
      cases h2 : readCount p k pr.2 with
      | none => rw [h2] at h; simp at h
      | some pr2 =>
        rw [h2] at h
        simp only [Option.map_some', Option.some.injEq, Prod.mk.injEq] at h
        simp only [readCount, hp bs pr.1 pr.2 ys (by rw [h1]),
          Option.some_bind, ih pr.2 pr2.1 pr2.2 ys (by rw [h2]), Option.map_some']
        simp [h.1, h.2]

theorem readOutpoint_enc (o : Outpoint) (h1 : o.txid < 256 ^ 8)
    (h2 : o.index < 256 ^ 4) :
    ∀ r, readOutpoint (encOutpoint o ++ r) = some (o, r) := by
  intro r
  simp [encOutpoint, readOutpoint, List.append_assoc, readWord_encWord 8 o.txid h1,
    readWord_encWord 4 o.index h2]

theorem readLock_enc (l : LockScript) (h : wfLock l) :
    ∀ r, readLock (encLock l ++ r) = some (l, r) := by
  cases l with
  | multisig2of2 k1 k2 =>
    intro r
    obtain ⟨hk1, hk2⟩ := h
    simp [encLock, readLock, List.append_assoc, readWord_encWord 8 k1 hk1,
      readWord_encWord 8 k2 hk2]
  | p2pkh k =>
    intro r
    simp [encLock, readLock, List.append_assoc, readWord_encWord 8 k h]

theorem readInput_enc (i : Input) (h : wfInput i) :
    ∀ r, readInput (encInput i ++ r) = some (i, r) := by
  obtain ⟨h1, h2, h3, h4, h5⟩ := h
  intro r
  simp [encInput, readInput, List.append_assoc, readOutpoint_enc i.outpoint h1 h2,
    readWord_encWord 4 i.proof.length h3,
    readCount_encMany (readWord 1) (encWord 1) i.proof
      (fun b hb => readWord_encWord 1 b (by simpa using h4 b hb)),
    readWord_encWord 4 i.sequence h5]

theorem readOutput_enc (o : Output) (h : wfOutput o) :
    ∀ r, readOutput (encOutput o ++ r) = some (o, r) := by
  intro r
  simp [encOutput, readOutput, List.append_assoc, readWord_encWord 8 o.value h.1,
    readLock_enc o.lock h.2]

theorem parseTx_enc (t : Transaction) (h : wellFormed t) :
    ∀ r, parseTx (encTx t ++ r) = some (t, r) := by
  obtain ⟨hv, hnin, hins, hnout, houts, hlt⟩ := h
  intro r
  simp [encTx, parseTx, List.append_assoc,
    readWord_encWord 4 t.version hv,
    readWord_encWord 4 t.inputs.length hnin,
    readCount_encMany readInput encInput t.inputs
      (fun i hi => readInput_enc i (hins i hi)),
    readWord_encWord 4 t.outputs.length hnout,
    readCount_encMany readOutput encOutput t.outputs
      (fun o ho => readOutput_enc o (houts o ho)),
    readWord_encWord 4 t.locktime hlt]

theorem readOutpoint_extend (bs : List Nat) (q : Outpoint) (r ys : List Nat)
    (h : readOutpoint bs = some (q, r)) :
    readOutpoint (bs ++ ys) = some (q, r ++ ys) := by
  simp only [readOutpoint] at h ⊢
  cases h8 : readWord 8 bs with
  | none => rw [h8] at h; simp at h
  | some p8 =>
    rw [h8] at h
    simp only [Option.some_bind] at h
    cases h4 : readWord 4 p8.2 with
    | none => rw [h4] at h; simp at h
    | some p4 =>
      rw [h4] at h
      simp only [Option.map_some', Option.some.injEq, Prod.mk.injEq] at h
      simp only [readWord_extend 8 bs p8.1 p8.2 ys (by rw [h8]), Option.some_bind,
        readWord_extend 4 p8.2 p4.1 p4.2 ys (by rw [h4]), Option.map_some']
      simp [h.1, h.2]

theorem readLock_extend (bs : List Nat) (q : LockScript) (r ys : List Nat)
    (h : readLock bs = some (q, r)) :
    readLock (bs ++ ys) = some (q, r ++ ys) := by
  cases bs with
  | nil => simp [readLock] at h
  | cons tag tl =>
    simp only [readLock, List.cons_append] at h ⊢
    by_cases h0 : tag = 0
    · rw [if_pos h0] at h ⊢
      cases h8 : readWord 8 tl with
      | none => rw [h8] at h; simp at h
      | some p8 =>
        rw [h8] at h
        simp only [Option.some_bind] at h
        cases h8b : readWord 8 p8.2 with
        | none => rw [h8b] at h; simp at h
        | some p8b =>
          rw [h8b] at h
          simp only [Option.map_some', Option.some.injEq, Prod.mk.injEq] at h
          simp only [readWord_extend 8 tl p8.1 p8.2 ys (by rw [h8]), Option.some_bind,
            readWord_extend 8 p8.2 p8b.1 p8b.2 ys (by rw [h8b]), Option.map_some']
          simp [h.1, h.2]
    · rw [if_neg h0] at h ⊢
      by_cases h1 : tag = 1
      · rw [if_pos h1] at h ⊢
        cases h8 : readWord 8 tl with
        | none => rw [h8] at h; simp at h
        | some p8 =>
          rw [h8] at h
          simp only [Option.map_some', Option.some.injEq, Prod.mk.injEq] at h
          simp only [readWord_extend 8 tl p8.1 p8.2 ys (by rw [h8]), Option.map_some']
          simp [h.1, h.2]
      · rw [if_neg h1] at h; simp at h

theorem readInput_extend (bs : List Nat) (q : Input) (r ys : List Nat)
    (h : readInput bs = some (q, r)) :
    readInput (bs ++ ys) = some (q, r ++ ys) := by
  simp only [readInput] at h ⊢
  cases hop : readOutpoint bs with
  | none => rw [hop] at h; simp at h
  | some pop =>
    rw [hop] at h
    simp only [Option.some_bind] at h
    cases hlen : readWord 4 pop.2 with
    | none => rw [hlen] at h; simp at h
    | some plen =>
      rw [hlen] at h
      simp only [Option.some_bind] at h
      cases hpf : readCount (readWord 1) plen.1 plen.2 with
      | none => rw [hpf] at h; simp at h
      | some ppf =>
        rw [hpf] at h
        simp only [Option.some_bind] at h
        cases hsq : readWord 4 ppf.2 with
        | none => rw [hsq] at h; simp at h
        | some psq =>
          rw [hsq] at h
          simp only [Option.map_some', Option.some.injEq, Prod.mk.injEq] at h
          simp only [readOutpoint_extend bs pop.1 pop.2 ys (by rw [hop]),
            Option.some_bind,
            readWord_extend 4 pop.2 plen.1 plen.2 ys (by rw [hlen]),
            readCount_extend (readWord 1) (readWord_extend 1) plen.1 plen.2
              ppf.1 ppf.2 ys (by rw [hpf]),
            readWord_extend 4 ppf.2 psq.1 psq.2 ys (by rw [hsq]), Option.map_some']
          simp [h.1, h.2]

theorem readOutput_extend (bs : List Nat) (q : Output) (r ys : List Nat)
    (h : readOutput bs = some (q, r)) :
    readOutput (bs ++ ys) = some (q, r ++ ys) := by
  simp only [readOutput] at h ⊢
  cases hv : readWord 8 bs with
  | none => rw [hv] at h; simp at h
  | some pv =>
    rw [hv] at h
    simp only [Option.some_bind] at h
    cases hl : readLock pv.2 with
    | none => rw [hl] at h; simp at h
    | some pl =>
      rw [hl] at h
      simp only [Option.map_some', Option.some.injEq, Prod.mk.injEq] at h
      simp only [readWord_extend 8 bs pv.1 pv.2 ys (by rw [hv]), Option.some_bind,
        readLock_extend pv.2 pl.1 pl.2 ys (by rw [hl]), Option.map_some']
      simp [h.1, h.2]

theorem parseTx_extend (bs : List Nat) (q : Transaction) (r ys : List Nat)
    (h : parseTx bs = some (q, r)) :
    parseTx (bs ++ ys) = some (q, r ++ ys) := by
  simp only [parseTx] at h ⊢
  cases hv : readWord 4 bs with
  | none => rw [hv] at h; simp at h
  | some pv =>
    rw [hv] at h
    simp only [Option.some_bind] at h
    cases hnin : readWord 4 pv.2 with
    | none => rw [hnin] at h; simp at h
    | some pnin =>
      rw [hnin] at h
      simp only [Option.some_bind] at h
      cases hins : readCount readInput pnin.1 pnin.2 with
      | none => rw [hins] at h; simp at h
      | some pins =>
        rw [hins] at h
        simp only [Option.some_bind] at h
        cases hnout : readWord 4 pins.2 with
        | none => rw [hnout] at h; simp at h
        | some pnout =>
          rw [hnout] at h
          simp only [Option.some_bind] at h
          cases houts : readCount readOutput pnout.1 pnout.2 with
          | none => rw [houts] at h; simp at h
          | some pouts =>
            rw [houts] at h
            simp only [Option.some_bind] at h
            cases hlt : readWord 4 pouts.2 with
            | none => rw [hlt] at h; simp at h
            | some plt =>
              rw [hlt] at h
              simp only [Option.map_some', Option.some.injEq, Prod.mk.injEq] at h
              simp only [readWord_extend 4 bs pv.1 pv.2 ys (by rw [hv]),
                Option.some_bind,
                readWord_extend 4 pv.2 pnin.1 pnin.2 ys (by rw [hnin]),
                readCount_extend readInput readInput_extend pnin.1 pnin.2
                  pins.1 pins.2 ys (by rw [hins]),
                readWord_extend 4 pins.2 pnout.1 pnout.2 ys (by rw [hnout]),
                readCount_extend readOutput readOutput_extend pnout.1 pnout.2
                  pouts.1 pouts.2 ys (by rw [houts]),
                readWord_extend 4 pouts.2 plt.1 plt.2 ys (by rw [hlt]),
                Option.map_some']
              simp [h.1, h.2]

/-! ## State machine lemmas -/

theorem step_preserves (t u : ChannelState) (h : Step t u) :
    u.capacity = t.capacity ∧
    t.amount_owed_to_payee ≤ u.amount_owed_to_payee ∧
    (t.amount_owed_to_payee ≤ t.capacity →
      u.amount_owed_to_payee ≤ u.capacity) := by
  cases h with
  | fund hh => cases hph : t.phase <;> simp [fund, hph]
  | update n =>
    cases hph : t.phase <;> simp [issueUpdate, hph]
    split_ifs <;> simp
    omega
  | settle => cases hph : t.phase <;> simp [settle, hph]
  | expire hh =>
    cases hph : t.phase <;> simp [expire, hph]
    split_ifs <;> simp

/-! ## Claim theorems -/

/-- C1: for a channel in phase `OPEN` with `amount_owed_to_payee ≤ capacity`,
`issueUpdate(newAmount)` fails with `NonMonotonicUpdate` when
`newAmount < amount_owed_to_payee` and with `CapacityExceeded` when
`newAmount > capacity`, leaving the channel state unchanged in both failure
cases; otherwise it succeeds, producing a new Payment transaction and setting
`amount_owed_to_payee` to `newAmount`. -/
theorem issueUpdate_policy (s : ChannelState) (n : Nat) (hph : s.phase = .OPEN)
    (hinv : s.amount_owed_to_payee ≤ s.capacity) :
    (n < s.amount_owed_to_payee →
      issueUpdate s n = (.error .NonMonotonicUpdate, s)) ∧
    (s.capacity < n →
      issueUpdate s n = (.error .CapacityExceeded, s)) ∧
    (s.amount_owed_to_payee ≤ n → n ≤ s.capacity →
      issueUpdate s n =
        (.ok (build .Payment { s with amount_owed_to_payee := n, updateSeq := s.updateSeq + 1 }),
         { s with amount_owed_to_payee := n, updateSeq := s.updateSeq + 1 })) := by
  refine ⟨?_, ?_, ?_⟩
  · intro h1
    simp [issueUpdate, hph, h1]
  · intro h1
    have h2 : ¬ n < s.amount_owed_to_payee := by omega
    simp [issueUpdate, hph, h1, h2]
  · intro h1 h2
    have h3 : ¬ n < s.amount_owed_to_payee := by omega
    have h4 : ¬ s.capacity < n := by omega
    simp [issueUpdate, hph, h3, h4]

/-- Witness for C1: at the sample open channel (amount owed 1000, capacity
100000), `issueUpdate 500` hits the `NonMonotonicUpdate` branch. -/
theorem issueUpdate_policy_witness :
    sampleOpen.phase = .OPEN ∧
    sampleOpen.amount_owed_to_payee ≤ sampleOpen.capacity ∧
    issueUpdate sampleOpen 500 = (.error .NonMonotonicUpdate, sampleOpen) :=
  ⟨rfl, by decide,
    (issueUpdate_policy sampleOpen 500 rfl (by decide)).1 (by decide)⟩

/-- C2: at every channel state reachable from a fresh channel by lifecycle
transitions, `0 ≤ amount_owed_to_payee ≤ capacity` holds, and
`amount_owed_to_payee` never decreases across any lifecycle step (in
particular across successive successful Payment updates). -/
theorem channel_invariant (fo : Outpoint) (cap rk pk yk d : Nat)
    (ops : List Outpoint) (s u : ChannelState)
    (h : Reachable (initChannel fo cap rk pk yk d ops) s) (hstep : Step s u) :
    (0 ≤ s.amount_owed_to_payee ∧ s.amount_owed_to_payee ≤ s.capacity) ∧
    s.amount_owed_to_payee ≤ u.amount_owed_to_payee ∧
    (0 ≤ u.amount_owed_to_payee ∧ u.amount_owed_to_payee ≤ u.capacity) := by
  have hs : s.amount_owed_to_payee ≤ s.capacity := by
    clear hstep
    induction h with
    | refl => simp [initChannel]
    | tail hreach hst ih => exact (step_preserves _ _ hst).2.2 ih
  exact ⟨⟨Nat.zero_le _, hs⟩, (step_preserves _ _ hstep).2.1,
    Nat.zero_le _, (step_preserves _ _ hstep).2.2 hs⟩

/-- Witness for C2: the fresh sample channel is reachable from itself, and a
`fund` call is a lifecycle step from it. -/
theorem channel_invariant_witness :
    Reachable sampleInit sampleInit ∧
    Step sampleInit (fund sampleInit 500).2 ∧
    ((0 ≤ sampleInit.amount_owed_to_payee ∧
        sampleInit.amount_owed_to_payee ≤ sampleInit.capacity) ∧
      sampleInit.amount_owed_to_payee ≤ (fund sampleInit 500).2.amount_owed_to_payee ∧
      (0 ≤ (fund sampleInit 500).2.amount_owed_to_payee ∧
        (fund sampleInit 500).2.amount_owed_to_payee ≤ (fund sampleInit 500).2.capacity)) :=
  ⟨Reachable.refl _, Step.fund _ 500,
    channel_invariant { txid := 3, index := 1 } 100000 11 12 13 144
      [{ txid := 3, index := 1 }] sampleInit (fund sampleInit 500).2
      (Reachable.refl _) (Step.fund _ 500)⟩

/-- C3: for every well-formed transaction, `decode` is a left inverse of
`encode`; `decode` fails with `MalformedTransaction` on every truncation of
an encoding (including count fields promising more data than is present) and
on trailing bytes after an encoding. -/
theorem codec_roundtrip_malformed (t : Transaction) (hwf : wellFormed t) :
    decode (encode t) = .ok t ∧
    (∀ p q, encode t = p ++ q → q ≠ [] →
      decode p = .error .MalformedTransaction) ∧
    (∀ extra, extra ≠ [] →
      decode (encode t ++ extra) = .error .MalformedTransaction) := by
  have hparse : ∀ r, parseTx (encTx t ++ r) = some (t, r) := parseTx_enc t hwf
  have hnil : parseTx (encTx t) = some (t, []) := by
    have := hparse []
    rwa [List.append_nil] at this
  refine ⟨?_, ?_, ?_⟩
  · simp [decode, encode, hnil]
  · intro p q heq hq
    cases hp : parseTx p with
    | none => simp [decode, hp]
    | some pr =>
      obtain ⟨t2, r2⟩ := pr
      cases r2 with
      | nil =>
        exfalso
        have hext := parseTx_extend p t2 [] q hp
        rw [List.nil_append] at hext
        have h2 : parseTx (p ++ q) = some (t, []) := by
          rw [← heq]
          simpa [encode] using hnil
        rw [hext] at h2
        simp only [Option.some.injEq, Prod.mk.injEq] at h2
        exact hq h2.2
      | cons b tl => simp [decode, hp]
  · intro extra hx
    cases extra with
    | nil => exact absurd rfl hx
    | cons b tl => simp [decode, encode, hparse (b :: tl)]

/-- Witness for C3: the sample transaction is well-formed, round-trips, and
its truncations and extensions are rejected. -/
theorem codec_roundtrip_malformed_witness :
    wellFormed sampleTx ∧
    (decode (encode sampleTx) = .ok sampleTx ∧
      (∀ p q, encode sampleTx = p ++ q → q ≠ [] →
        decode p = .error .MalformedTransaction) ∧
      (∀ extra, extra ≠ [] →
        decode (encode sampleTx ++ extra) = .error .MalformedTransaction)) :=
  ⟨by decide, codec_roundtrip_malformed sampleTx (by decide)⟩

/-- C4: the Payment transaction built from a channel state with
`amount_owed_to_payee ≤ capacity` has exactly two outputs — the amount owed
to the payee and the remainder to the payer — whose values sum to the
capacity. -/
theorem payment_conservation (s : ChannelState)
    (h : s.amount_owed_to_payee ≤ s.capacity) :
    (build .Payment s).outputs =
      [{ value := s.amount_owed_to_payee, lock := .p2pkh s.payeePubkey },
       { value := s.capacity - s.amount_owed_to_payee,
         lock := .p2pkh s.payerPubkey }] ∧
    (build .Payment s).outputs.length = 2 ∧
    ((build .Payment s).outputs.map (fun o => o.value)).sum = s.capacity := by
  refine ⟨rfl, rfl, ?_⟩
  simp [build]
  omega

/-- Witness for C4: the Payment built from the sample open channel splits
1000 / 99000 over a capacity of 100000. -/
theorem payment_conservation_witness :
    sampleOpen.amount_owed_to_payee ≤ sampleOpen.capacity ∧
    ((build .Payment sampleOpen).outputs =
        [{ value := sampleOpen.amount_owed_to_payee,
           lock := .p2pkh sampleOpen.payeePubkey },
         { value := sampleOpen.capacity - sampleOpen.amount_owed_to_payee,
           lock := .p2pkh sampleOpen.payerPubkey }] ∧
      (build .Payment sampleOpen).outputs.length = 2 ∧
      ((build .Payment sampleOpen).outputs.map (fun o => o.value)).sum =
        sampleOpen.capacity) :=
  ⟨by decide, payment_conservation sampleOpen (by decide)⟩

/-- C5: `build` is pure and deterministic — identical `ChannelState`
snapshots yield equal unsigned transactions and byte-identical canonical
encodings, for every variant. -/
theorem build_deterministic (v : Variant) (s1 s2 : ChannelState) (h : s1 = s2) :
    build v s1 = build v s2 ∧ encode (build v s1) = encode (build v s2) := by
  subst h
  exact ⟨rfl, rfl⟩

/-- Witness for C5: two builds of the Payment variant from the same sample
snapshot coincide. -/
theorem build_deterministic_witness :
    sampleOpen = sampleOpen ∧
    (build .Payment sampleOpen = build .Payment sampleOpen ∧
      encode (build .Payment sampleOpen) = encode (build .Payment sampleOpen)) :=
  ⟨rfl, build_deterministic .Payment sampleOpen sampleOpen rfl⟩

/-- C6: in phase `OPEN`, `expire` at a height below
`fundingConfirmationHeight + delay` fails with `InvalidStateTransition`
leaving the state unchanged, and at exactly that height succeeds, moving the
channel to `EXPIRED` and producing the Refund transaction. -/
theorem expire_timelock (s : ChannelState) (ch : Nat) (hph : s.phase = .OPEN) :
    (ch < s.fundingConfirmationHeight + s.delay →
      expire s ch = (.error .InvalidStateTransition, s)) ∧
    (ch = s.fundingConfirmationHeight + s.delay →
      expire s ch = (.ok (build .Refund s), { s with phase := .EXPIRED })) := by
  constructor
  · intro h
    simp [expire, hph, h]
  · intro h
    subst h
    simp [expire, hph]

/-- Witness for C6: the sample open channel (funded at height 500, delay 144)
expires successfully at height 644. -/
theorem expire_timelock_witness :
    sampleOpen.phase = .OPEN ∧
    ((644 < sampleOpen.fundingConfirmationHeight + sampleOpen.delay →
        expire sampleOpen 644 = (.error .InvalidStateTransition, sampleOpen)) ∧
      (644 = sampleOpen.fundingConfirmationHeight + sampleOpen.delay →
        expire sampleOpen 644 =
          (.ok (build .Refund sampleOpen), { sampleOpen with phase := .EXPIRED }))) :=
  ⟨rfl, expire_timelock sampleOpen 644 rfl⟩

/-- C7: the Refund transaction built from any channel state — including one
with a nonzero `amount_owed_to_payee` — has a single output returning the
full capacity to the payer's refund key; no output honours the payee's
accrued claim. -/
theorem refund_full_capacity (s : ChannelState) :
    (build .Refund s).outputs =
      [{ value := s.capacity, lock := .p2pkh s.payerRefundPubkey }] ∧
    (build .Refund s).outputs.length = 1 ∧
    ((build .Refund s).outputs.map (fun o => o.value)).sum = s.capacity := by
  refine ⟨rfl, rfl, ?_⟩
  simp [build]

/-- C8: every lifecycle transition is atomic — it either returns a
transaction, or returns an error and a state exactly equal to the starting
state. -/
theorem transitions_atomic (s : ChannelState) (hh n ch : Nat) :
    ((∃ tx, (fund s hh).1 = .ok tx) ∨
      (∃ e, (fund s hh).1 = .error e ∧ (fund s hh).2 = s)) ∧
    ((∃ tx, (issueUpdate s n).1 = .ok tx) ∨
      (∃ e, (issueUpdate s n).1 = .error e ∧ (issueUpdate s n).2 = s)) ∧
    ((∃ tx, (settle s).1 = .ok tx) ∨
      (∃ e, (settle s).1 = .error e ∧ (settle s).2 = s)) ∧
    ((∃ tx, (expire s ch).1 = .ok tx) ∨
      (∃ e, (expire s ch).1 = .error e ∧ (expire s ch).2 = s)) := by
  refine ⟨?_, ?_, ?_, ?_⟩
  · cases hph : s.phase <;> simp [fund, hph]
  · cases hph : s.phase <;> simp [issueUpdate, hph]
    split_ifs <;> simp
  · cases hph : s.phase <;> simp [settle, hph]
  · cases hph : s.phase <;> simp [expire, hph]
    split_ifs <;> simp

/-- C9: `CLOSED` and `EXPIRED` are terminal — every lifecycle transition from
them fails with `InvalidStateTransition` and leaves the state (hence the
phase) unchanged — and building a variant inconsistent with the phase, such
as `issueUpdate` after `settle` or the Refund path while `UNFUNDED`, fails
with `InvalidStateTransition`. -/
theorem terminal_phases (s s0 u : ChannelState) (hh n ch : Nat)
    (h : s.phase = .CLOSED ∨ s.phase = .EXPIRED) (h0 : s0.phase = .UNFUNDED) :
    fund s hh = (.error .InvalidStateTransition, s) ∧
    issueUpdate s n = (.error .InvalidStateTransition, s) ∧
    settle s = (.error .InvalidStateTransition, s) ∧
    expire s ch = (.error .InvalidStateTransition, s) ∧
    (Step s u → u = s) ∧
    issueUpdate s0 n = (.error .InvalidStateTransition, s0) ∧
    expire s0 ch = (.error .InvalidStateTransition, s0) := by
  have hfund : ∀ k, fund s k = (.error .InvalidStateTransition, s) := by
    intro k; obtain h | h := h <;> simp [fund, h]
  have hupd : ∀ k, issueUpdate s k = (.error .InvalidStateTransition, s) := by
    intro k; obtain h | h := h <;> simp [issueUpdate, h]
  have hsettle : settle s = (.error .InvalidStateTransition, s) := by
    obtain h | h := h <;> simp [settle, h]
  have hexp : ∀ k, expire s k = (.error .InvalidStateTransition, s) := by
    intro k; obtain h | h := h <;> simp [expire, h]
  refine ⟨hfund hh, hupd n, hsettle, hexp ch, ?_, ?_, ?_⟩
  · intro hstep
    cases hstep with
    | fund k => rw [hfund k]
    | update k => rw [hupd k]
    | settle => rw [hsettle]
    | expire k => rw [hexp k]
  · simp [issueUpdate, h0]
  · simp [expire, h0]

/-- Witness for C9: the sample closed channel rejects every transition, and
the fresh sample channel rejects `issueUpdate` and `expire`. -/
theorem terminal_phases_witness :
    (sampleClosed.phase = .CLOSED ∨ sampleClosed.phase = .EXPIRED) ∧
    sampleInit.phase = .UNFUNDED ∧
    (fund sampleClosed 500 = (.error .InvalidStateTransition, sampleClosed) ∧
      issueUpdate sampleClosed 2000 = (.error .InvalidStateTransition, sampleClosed) ∧
      settle sampleClosed = (.error .InvalidStateTransition, sampleClosed) ∧
      expire sampleClosed 700 = (.error .InvalidStateTransition, sampleClosed) ∧
      (Step sampleClosed sampleClosed → sampleClosed = sampleClosed) ∧
      issueUpdate sampleInit 2000 = (.error .InvalidStateTransition, sampleInit) ∧
      expire sampleInit 700 = (.error .InvalidStateTransition, sampleInit)) :=
  ⟨Or.inl rfl, rfl,
    terminal_phases sampleClosed sampleInit sampleClosed 500 2000 700
      (Or.inl rfl) rfl⟩

/-- C10: serializing a channel transaction object through `to_data` is
read-only — it returns the canonical encoding of the stored `transaction_`
and leaves the object unchanged, for every concrete variant. -/
theorem to_data_const (o : channel_transaction) :
    (to_data o).2 = o ∧ (to_data o).1 = encode o.transaction_ := by
  cases hv : o.variant <;> simp [to_data, hv]

end OneWayChannel
